import Mathlib

/-!
Shallow embedding of the solar-monitoring core pipeline
(`DataProcessor` in the data-processor module and `AlertChecker` in
`src/utils/helpers.js`).

Modelling conventions:
* JS numbers are modelled as exact rationals (`ℚ`). A field that the
  source materialises as `null` is modelled as `Option ℚ` with `none`
  for `null` (the ingestion path `processSensorData` always sets absent
  sensor fields to `null`, never `undefined`).
* JS truthiness of a numeric field: `null` and `0` are falsy, every
  other number is truthy (`NaN` is outside the model).
* A relational comparison `x < c` where `x` may be `null` coerces
  `null` to `0` (ECMA ToNumber on `null`).
* `Math.round x` is `⌊x + 1/2⌋`, i.e. Mathlib's `round` on `ℚ`
  (half-way values go up, matching JS).
* `v.toFixed(d)` followed by `parseFloat` is rounding to `d` decimal
  places, `roundTo` below; ties round to the larger candidate, again
  `round`.
* A JS `Date` object is modelled as a record of the observable
  accessor values the core uses: the epoch milliseconds (`ms`, what
  `Date` subtraction yields), the local-time components
  `getFullYear/getMonth/getDate/getHours`, and the date part of
  `toISOString`.  The calendar/timezone relation between these views
  is external to the core logic and is not imposed here.
* `Array.prototype.sort` with a numeric / lexical comparator is a
  stable sort, hence equal to insertion sort by the corresponding
  total preorder; string comparison on the ASCII keys produced here
  agrees between JS (UTF-16 units) and Lean (code points).
-/

namespace Solar

/-- Observable accessor values of a JS `Date`. -/
structure DateTime where
  ms : ℚ
  year : ℕ
  /-- The JS `getMonth()` value, 0-based. -/
  month0 : ℕ
  day : ℕ
  hour : ℕ
  /-- Date part of `toISOString()`. -/
  isoDate : String
deriving DecidableEq

/-- One processed sensor reading (shape produced by `processSensorData`):
absent fields are `null`, modelled as `none`. -/
structure Reading where
  timestamp : DateTime
  voltage : Option ℚ
  current : Option ℚ
  temperature : Option ℚ
  power : Option ℚ
deriving DecidableEq

/-- JS truthiness of a possibly-null number: `null` and `0` are falsy. -/
def truthy : Option ℚ → Bool
  | none => false
  | some v => decide (v ≠ 0)

/-- JS `x < c` where `x` may be `null` (`null` coerces to `0`). -/
def jsLtNull (x : Option ℚ) (c : ℚ) : Bool :=
  match x with
  | none => decide ((0 : ℚ) < c)
  | some v => decide (v < c)

/-- JS `x > c` where `x` may be `null`. -/
def jsGtNull (x : Option ℚ) (c : ℚ) : Bool :=
  match x with
  | none => decide (c < (0 : ℚ))
  | some v => decide (c < v)

/-- JS `x || 0` on a possibly-null number (`null` and `0` both give `0`). -/
def jsOr0 : Option ℚ → ℚ
  | none => 0
  | some v => v

/-- Rounding to `n` decimal places, i.e. `parseFloat(x.toFixed(n))`
(ties go to the larger candidate, as `toFixed` specifies). -/
def roundTo (n : ℕ) (q : ℚ) : ℚ :=
  ((round (q * 10 ^ n) : ℤ) : ℚ) / 10 ^ n

/-- Left-pad a digit string with zeros to width `n`. -/
def padZeros (n : ℕ) (s : String) : String :=
  String.mk (List.replicate (n - s.length) '0') ++ s

/-- Decimal rendering `q.toFixed(n)` as a string, for the positive values the core formats.
(The `-0.00` corner of JS formatting for tiny negatives is outside the
model; all formatted values in the source are bounded away from zero.) -/
def ratToFixed (n : ℕ) (q : ℚ) : String :=
  let scaled : ℤ := round (q * 10 ^ n)
  let sign := if scaled < 0 then "-" else ""
  let a := scaled.natAbs
  if n = 0 then sign ++ toString a
  else sign ++ toString (a / 10 ^ n) ++ "." ++ padZeros n (toString (a % 10 ^ n))

/-- Embeds `DataProcessor.determineStatus`: nested truthiness-guarded ifs.
`!data.voltage || data.voltage < 10` short-circuits, so `jsLtNull` is
only reached with a truthy operand, where it equals the plain comparison. -/
def determineStatus (d : Reading) : String :=
  if !truthy d.voltage || jsLtNull d.voltage 10 then "critical"
  else if !truthy d.current || jsLtNull d.current (1/10) then "warning"
  else if truthy d.temperature && jsGtNull d.temperature 60 then "warning"
  else "normal"

/-- Modelled from the spec (§4.2 rules, read literally): first match wins,
absence tested by `Option` shape, values compared directly. -/
def specStatus (d : Reading) : String :=
  match d.voltage with
  | none => "critical"
  | some v =>
    if v < 10 then "critical"
    else
      match d.current with
      | none => "warning"
      | some c =>
        if c < 1/10 then "warning"
        else
          match d.temperature with
          | none => "normal"
          | some t => if t > 60 then "warning" else "normal"

/-- A fixed concrete `DateTime` used by the scenario theorems. -/
def dt0 : DateTime := ⟨0, 2024, 4, 1, 12, "2024-05-01"⟩

/-- One anomaly record produced by `detectAnomalies`.  `value` carries the
raw (possibly-null) field the source stores; `previous` is only set by the
voltage-drop rule. -/
structure Anomaly where
  type : String
  severity : String
  message : String
  value : Option ℚ
  previous : Option ℚ
deriving DecidableEq

/-- Embeds `DataProcessor.detectAnomalies(dataPoint, previousData)`.
The three checks are independent and append in source order.
The voltage-drop guard is `previousData && dataPoint.voltage &&
previousData.voltage`; the zero-current guard is `dataPoint.voltage &&
dataPoint.voltage > 12 && dataPoint.current < 0.1` (a `null` current
relationally compares as `0`); the temperature guard is
`dataPoint.temperature && dataPoint.temperature > 50`. -/
def detectAnomalies (dataPt : Option Reading) (previousData : Option Reading) :
    List Anomaly :=
  match dataPt with
  | none => []
  | some dataPoint =>
    let voltageDropList :=
      match previousData with
      | none => []
      | some previous =>
        if truthy dataPoint.voltage && truthy previous.voltage then
          let voltageDrop := jsOr0 previous.voltage - jsOr0 dataPoint.voltage
          if voltageDrop > 2 then
            [⟨"voltage_drop",
              if voltageDrop > 5 then "critical" else "warning",
              "Sudden voltage drop detected: " ++ ratToFixed 2 voltageDrop ++ "V",
              dataPoint.voltage, previous.voltage⟩]
          else []
        else []
    let zeroCurrentList :=
      if truthy dataPoint.voltage && jsGtNull dataPoint.voltage 12 &&
          jsLtNull dataPoint.current (1/10) then
        [⟨"zero_current", "warning", "Voltage present but no current detected",
          dataPoint.current, none⟩]
      else []
    let highTemperatureList :=
      if truthy dataPoint.temperature && jsGtNull dataPoint.temperature 50 then
        [⟨"high_temperature",
          if jsGtNull dataPoint.temperature 60 then "critical" else "warning",
          "High temperature detected: " ++ ratToFixed 1 (jsOr0 dataPoint.temperature) ++ "°C",
          dataPoint.temperature, none⟩]
      else []
    voltageDropList ++ zeroCurrentList ++ highTemperatureList

/-- One candidate alert as consumed by `AlertChecker.filterRecentDuplicates`. -/
structure Alert where
  type : String
  severity : String
  message : String
  value : ℚ
deriving DecidableEq

/-- The dedup key `` `${alert.type}_${Math.round(alert.value * 10)}` ``. -/
def alertKey (a : Alert) : String :=
  a.type ++ "_" ++ toString (round (a.value * 10))

/-- The `forEach` loop of `filterRecentDuplicates`: `seen` is the `Set`
of keys, the returned list is `uniqueAlerts` in push order. -/
def dedupGo (seen : List String) : List Alert → List Alert
  | [] => []
  | a :: rest =>
    if alertKey a ∈ seen then dedupGo seen rest
    else a :: dedupGo (alertKey a :: seen) rest

/-- Embeds `AlertChecker.filterRecentDuplicates`. -/
def filterRecentDuplicates (alerts : List Alert) : List Alert :=
  dedupGo [] alerts

/-- Modelled from the spec (§4.5): "first occurrence wins; later
duplicates dropped" — keep each alert and drop every later alert with
the same key. -/
def keepFirstByKey : List Alert → List Alert
  | [] => []
  | a :: rest =>
    a :: keepFirstByKey (rest.filter (fun b => decide (alertKey b ≠ alertKey a)))
termination_by l => l.length
decreasing_by
  simp only [List.length_cons]
  exact Nat.lt_succ_of_le (List.length_filter_le _ _)

/-- Result shape of `AlertChecker.analyzeTrend`.  The degenerate branch
returns an object without an `intercept` property, modelled as `none`. -/
structure TrendResult where
  slope : ℚ
  intercept : Option ℚ
  r2 : ℚ
deriving DecidableEq

/-- Embeds `AlertChecker.analyzeTrend`: least-squares fit against the 0-based
index, `r2` against the mean, all rounded to 4 decimals.  (On every
input with at least 2 elements the slope denominator
`n*sumX2 - sumX^2` is positive since the indices are distinct, so the
`ℚ` convention `x/0 = 0` is never exercised.) -/
def analyzeTrend (data : List ℚ) : TrendResult :=
  if data.length < 2 then ⟨0, none, 0⟩
  else
    let n : ℚ := data.length
    let pts := data.enum
    let sumX : ℚ := (pts.map (fun p => (p.1 : ℚ))).sum
    let sumY : ℚ := (pts.map (fun p => p.2)).sum
    let sumXY : ℚ := (pts.map (fun p => (p.1 : ℚ) * p.2)).sum
    let sumX2 : ℚ := (pts.map (fun p => (p.1 : ℚ) * (p.1 : ℚ))).sum
    let slope := (n * sumXY - sumX * sumY) / (n * sumX2 - sumX * sumX)
    let intercept := (sumY - slope * sumX) / n
    let meanY := sumY / n
    let ssTot : ℚ := (pts.map (fun p => (p.2 - meanY) ^ 2)).sum
    let ssRes : ℚ := (pts.map (fun p => (p.2 - (slope * (p.1 : ℚ) + intercept)) ^ 2)).sum
    let r2 := if ssTot > 0 then 1 - ssRes / ssTot else 0
    ⟨roundTo 4 slope, some (roundTo 4 intercept), roundTo 4 r2⟩

/-- Comparison used by the energy integrator's sort:
`(a, b) => new Date(a.timestamp) - new Date(b.timestamp)`. -/
def tsLe (a b : Reading) : Prop := a.timestamp.ms ≤ b.timestamp.ms

instance : DecidableRel tsLe := fun a b =>
  inferInstanceAs (Decidable (a.timestamp.ms ≤ b.timestamp.ms))
instance : IsTotal Reading tsLe := ⟨fun _ _ => le_total _ _⟩
instance : IsTrans Reading tsLe := ⟨fun _ _ _ => le_trans⟩

/-- The in-place `dataPoints.sort(...)` by ascending timestamp: a stable sort, hence
equal to insertion sort by `tsLe`. -/
def sortByTimestamp (l : List Reading) : List Reading := l.insertionSort tsLe

/-- The accumulation loop of `calculateEnergyConsumption`: for each
adjacent pair, `avg(prev.power || 0, curr.power || 0) * Δt_hours`,
`Δt_hours = Δms / (1000*3600)`. -/
def trapSum : List Reading → ℚ
  | [] => 0
  | [_] => 0
  | a :: b :: rest =>
    (jsOr0 a.power + jsOr0 b.power) / 2 *
        ((b.timestamp.ms - a.timestamp.ms) / (1000 * 3600)) +
      trapSum (b :: rest)

/-- Return value of `DataProcessor.calculateEnergyConsumption` (kWh). -/
def calculateEnergyConsumption (dataPoints : List Reading) : ℚ :=
  if dataPoints.length < 2 then 0
  else trapSum (sortByTimestamp dataPoints) / 1000

/-- Contents of the caller's `dataPoints` array *after*
`calculateEnergyConsumption` returns: the guard returns early below 2
elements, otherwise `Array.prototype.sort` has reordered it in place. -/
def calculateEnergyConsumptionPost (dataPoints : List Reading) : List Reading :=
  if dataPoints.length < 2 then dataPoints else sortByTimestamp dataPoints

/-- The `interval` parameter of `generateTimeSeriesData`; any string other
than the three recognized ones falls to the `default` switch branch. -/
inductive Interval
  | hour
  | day
  | week
  | other (s : String)
deriving DecidableEq

/-- Bucket-key construction of `generateTimeSeriesData`: template strings
over unpadded decimal components. -/
def bucketKey (interval : Interval) (d : DateTime) : String :=
  match interval with
  | .hour =>
    toString d.year ++ "-" ++ toString (d.month0 + 1) ++ "-" ++ toString d.day ++
      " " ++ toString d.hour ++ ":00"
  | .day =>
    toString d.year ++ "-" ++ toString (d.month0 + 1) ++ "-" ++ toString d.day
  | .week =>
    -- `Math.ceil(date.getDate() / 7)`
    toString d.year ++ "-W" ++ toString ((d.day + 6) / 7)
  | .other _ => d.isoDate

/-- One entry of the `grouped` object: the per-bucket sample arrays. -/
structure Group where
  timestamp : String
  voltages : List ℚ
  currents : List ℚ
  temperatures : List ℚ
  powers : List ℚ
deriving DecidableEq

def initGroup (key : String) : Group := ⟨key, [], [], [], []⟩

/-- The four truthiness-guarded `push` statements. -/
def pushFields (r : Reading) (g : Group) : Group :=
  { g with
    voltages := g.voltages ++ if truthy r.voltage then [jsOr0 r.voltage] else [],
    currents := g.currents ++ if truthy r.current then [jsOr0 r.current] else [],
    temperatures := g.temperatures ++ if truthy r.temperature then [jsOr0 r.temperature] else [],
    powers := g.powers ++ if truthy r.power then [jsOr0 r.power] else [] }

/-- Update of `grouped[key]` for one reading: existing key updated in place,
fresh key appended (JS object insertion order). -/
def updateGroups (key : String) (r : Reading) :
    List (String × Group) → List (String × Group)
  | [] => [(key, pushFields r (initGroup key))]
  | (k, g) :: rest =>
    if k = key then (k, pushFields r g) :: rest
    else (k, g) :: updateGroups key r rest

/-- The grouping `forEach` of `generateTimeSeriesData`. -/
def groupReadings (interval : Interval) (l : List Reading) :
    List (String × Group) :=
  l.foldl (fun acc r => updateGroups (bucketKey interval r.timestamp) r acc) []

/-- One output bucket of `generateTimeSeriesData`. -/
structure Bucket where
  timestamp : String
  voltage : ℚ
  current : ℚ
  temperature : ℚ
  power : ℚ
  readings : ℕ
deriving DecidableEq

/-- Guarded mean `xs.length > 0 ? xs.reduce((a,b) => a+b, 0) / xs.length : 0`. -/
def avgOr0 (xs : List ℚ) : ℚ :=
  if 0 < xs.length then xs.sum / (xs.length : ℚ) else 0

/-- Bucket construction: rounded field averages, `readings` = number of
voltage samples pushed. -/
def mkBucket (k : String) (g : Group) : Bucket :=
  ⟨k, roundTo 2 (avgOr0 g.voltages), roundTo 3 (avgOr0 g.currents),
    roundTo 1 (avgOr0 g.temperatures), roundTo 1 (avgOr0 g.powers),
    g.voltages.length⟩

/-- The final sort's comparator: ascending lexical on the key strings. -/
def keyLe (a b : Bucket) : Prop := a.timestamp ≤ b.timestamp

instance : DecidableRel keyLe := fun a b =>
  inferInstanceAs (Decidable (a.timestamp ≤ b.timestamp))
instance : IsTotal Bucket keyLe := ⟨fun _ _ => le_total _ _⟩
instance : IsTrans Bucket keyLe := ⟨fun _ _ _ => le_trans⟩

/-- Embeds `DataProcessor.generateTimeSeriesData(dataPoints, interval = 'hour')`:
group, average, then sort ascending by key (stable lexical sort =
insertion sort by `keyLe`). -/
def generateTimeSeriesData (dataPoints : List Reading) (interval : Interval) :
    List Bucket :=
  (((groupReadings interval dataPoints).map fun p => mkBucket p.1 p.2).insertionSort keyLe)

/-- Readings of `l` landing in bucket `k` whose `field` survives the
truthiness guard, in input order, projected to the field value. -/
def fieldSamples (field : Reading → Option ℚ) (interval : Interval) (k : String)
    (l : List Reading) : List ℚ :=
  (l.filter fun r => bucketKey interval r.timestamp == k && truthy (field r)).map
    fun r => jsOr0 (field r)

/-- Association lookup in the `grouped` object. -/
def lookupG (k : String) : List (String × Group) → Option Group
  | [] => none
  | (k', g) :: rest => if k' = k then some g else lookupG k rest

/-- Modelled from the spec (§4.6): the sample mean of the regression
abscissae, i.e. of the 0-based indices. -/
def olsMeanX (data : List ℚ) : ℚ :=
  (data.enum.map (fun p => (p.1 : ℚ))).sum / data.length

/-- Modelled from the spec (§4.6): the sample mean of the values. -/
def olsMeanY (data : List ℚ) : ℚ := data.sum / data.length

/-- Modelled from the spec (§4.6): textbook ordinary-least-squares slope,
covariance over variance of the index. -/
def olsSlope (data : List ℚ) : ℚ :=
  (data.enum.map (fun p => ((p.1 : ℚ) - olsMeanX data) * (p.2 - olsMeanY data))).sum /
    (data.enum.map (fun p => ((p.1 : ℚ) - olsMeanX data) ^ 2)).sum

/-- Modelled from the spec (§4.6): OLS intercept through the means. -/
def olsIntercept (data : List ℚ) : ℚ :=
  olsMeanY data - olsSlope data * olsMeanX data

/-- Modelled from the spec (§4.6): coefficient of determination against
the mean, with the degenerate zero-variance case mapped to 0. -/
def olsR2 (data : List ℚ) : ℚ :=
  if (data.enum.map (fun p => (p.2 - olsMeanY data) ^ 2)).sum > 0 then
    1 - (data.enum.map
          (fun p => (p.2 - (olsSlope data * (p.1 : ℚ) + olsIntercept data)) ^ 2)).sum /
        (data.enum.map (fun p => (p.2 - olsMeanY data) ^ 2)).sum
  else 0

/-- Concrete readings at 0 h / 1 h / 2 h with powers 10 W, 0 W, 10 W. -/
def rA : Reading := ⟨⟨0, 2024, 4, 1, 0, "2024-05-01"⟩, some 12, some 1, some 25, some 10⟩

def rB : Reading := ⟨⟨3600000, 2024, 4, 1, 1, "2024-05-01"⟩, some 12, some 1, some 25, some 0⟩

def rC : Reading := ⟨⟨7200000, 2024, 4, 1, 2, "2024-05-01"⟩, some 12, some 1, some 25, some 10⟩

/-- Two readings in the same hour with voltages 12 V and 13 V. -/
def rv12 : Reading := ⟨dt0, some 12, some 1, some 25, some 12⟩

def rv13 : Reading := ⟨⟨60000, 2024, 4, 1, 12, "2024-05-01"⟩, some 13, some 1, some 25, some 13⟩

/-- A reading whose voltage is present but measures exactly 0. -/
def rv0 : Reading := ⟨dt0, some 0, some 1, some 25, some 0⟩

/-- Readings at hour 2 and hour 10 of the same day. -/
def rH2 : Reading := ⟨⟨0, 2024, 4, 1, 2, "2024-05-01"⟩, some 12, some 1, some 25, some 12⟩

def rH10 : Reading :=
  ⟨⟨28800000, 2024, 4, 1, 10, "2024-05-01"⟩, some 13, some 1, some 25, some 13⟩

lemma truthy_iff {x : Option ℚ} : truthy x = true ↔ ∃ v, x = some v ∧ v ≠ 0 := by
  cases x <;> simp [truthy]

lemma keepFirstByKey_nil : keepFirstByKey [] = [] := by
  simp [keepFirstByKey]

lemma keepFirstByKey_cons (a : Alert) (rest : List Alert) :
    keepFirstByKey (a :: rest) =
      a :: keepFirstByKey (rest.filter fun b => decide (alertKey b ≠ alertKey a)) := by
  simp [keepFirstByKey]

lemma dedupGo_eq_keepFirst :
    ∀ (l : List Alert) (seen : List String),
      dedupGo seen l =
        keepFirstByKey (l.filter fun a => decide (alertKey a ∉ seen)) := by
  intro l
  induction l with
  | nil => intro seen; simp [dedupGo, keepFirstByKey_nil]
  | cons a rest ih =>
    intro seen
    by_cases h : alertKey a ∈ seen
    · rw [dedupGo, if_pos h, List.filter_cons, ih]
      simp [h]
    · rw [dedupGo, if_neg h, List.filter_cons]
      have hd : decide (alertKey a ∉ seen) = true := by simp [h]
      rw [hd, if_pos rfl, keepFirstByKey_cons, ih, List.filter_filter]
      have hptw : List.filter (fun b => decide (alertKey b ∉ alertKey a :: seen)) rest =
          List.filter (fun b => decide (alertKey b ≠ alertKey a) && decide (alertKey b ∉ seen))
            rest := by
        apply List.filter_congr
        intro b _
        by_cases h1 : alertKey b = alertKey a <;> by_cases h2 : alertKey b ∈ seen <;>
          simp [h1, h2]
      rw [hptw]

lemma trapSum_nonneg :
    ∀ l : List Reading, List.Sorted tsLe l → (∀ r ∈ l, 0 ≤ jsOr0 r.power) →
      0 ≤ trapSum l := by
  intro l
  induction l with
  | nil => intro _ _; simp [trapSum]
  | cons a tl ih =>
    intro hs hp
    cases tl with
    | nil => simp [trapSum]
    | cons b rest =>
      rw [trapSum]
      have hab : tsLe a b := List.rel_of_sorted_cons hs b (by simp)
      have h1 : 0 ≤ (jsOr0 a.power + jsOr0 b.power) / 2 := by
        have ha := hp a (by simp)
        have hb := hp b (by simp)
        linarith
      have h2 : 0 ≤ (b.timestamp.ms - a.timestamp.ms) / (1000 * 3600) := by
        have hle : a.timestamp.ms ≤ b.timestamp.ms := hab
        apply div_nonneg (by linarith) (by norm_num)
      have h3 : 0 ≤ trapSum (b :: rest) := by
        apply ih (List.sorted_cons.mp hs).2
        intro r hr
        exact hp r (List.mem_cons_of_mem a hr)
      have := mul_nonneg h1 h2
      linarith

lemma calculateEnergyConsumption_nonneg (l : List Reading)
    (hp : ∀ r ∈ l, 0 ≤ jsOr0 r.power) : 0 ≤ calculateEnergyConsumption l := by
  rw [calculateEnergyConsumption]
  split
  · exact le_refl 0
  · apply div_nonneg _ (by norm_num)
    apply trapSum_nonneg
    · exact List.sorted_insertionSort _ _
    · intro r hr
      exact hp r ((List.mem_insertionSort _).mp hr)

lemma trapSum_cons_ge (a : Reading) (l : List Reading)
    (hs : List.Sorted tsLe (a :: l)) (hp : ∀ r ∈ a :: l, 0 ≤ jsOr0 r.power) :
    trapSum l ≤ trapSum (a :: l) := by
  cases l with
  | nil => simp [trapSum]
  | cons b rest =>
    rw [trapSum]
    have hab : tsLe a b := List.rel_of_sorted_cons hs b (by simp)
    have h1 : 0 ≤ (jsOr0 a.power + jsOr0 b.power) / 2 := by
      have ha := hp a (by simp)
      have hb := hp b (by simp)
      linarith
    have h2 : 0 ≤ (b.timestamp.ms - a.timestamp.ms) / (1000 * 3600) := by
      have hle : a.timestamp.ms ≤ b.timestamp.ms := hab
      apply div_nonneg (by linarith) (by norm_num)
    have := mul_nonneg h1 h2
    linarith

lemma trapSum_append_ge :
    ∀ (l l₃ : List Reading), List.Sorted tsLe (l ++ l₃) →
      (∀ r ∈ l ++ l₃, 0 ≤ jsOr0 r.power) → trapSum l ≤ trapSum (l ++ l₃) := by
  intro l
  induction l with
  | nil =>
    intro l₃ hs hp
    simpa [trapSum] using trapSum_nonneg l₃ (by simpa using hs) (by simpa using hp)
  | cons a tl ih =>
    intro l₃ hs hp
    cases tl with
    | nil =>
      have h0 : 0 ≤ trapSum (a :: l₃) := trapSum_nonneg _ (by simpa using hs) (by simpa using hp)
      simpa [trapSum] using h0
    | cons b rest =>
      have hs' : List.Sorted tsLe ((b :: rest) ++ l₃) := (List.sorted_cons.mp (by simpa using hs)).2
      have hp' : ∀ r ∈ (b :: rest) ++ l₃, 0 ≤ jsOr0 r.power := by
        intro r hr
        exact hp r (by simp at hr ⊢; tauto)
      have hIH := ih l₃ hs' hp'
      simp only [List.cons_append] at hIH ⊢
      rw [trapSum, trapSum]
      exact add_le_add_left hIH _

lemma trapSum_front_ge :
    ∀ (l₁ rest : List Reading), List.Sorted tsLe (l₁ ++ rest) →
      (∀ r ∈ l₁ ++ rest, 0 ≤ jsOr0 r.power) → trapSum rest ≤ trapSum (l₁ ++ rest) := by
  intro l₁
  induction l₁ with
  | nil => intro rest _ _; simp
  | cons a tl ih =>
    intro rest hs hp
    have hs' : List.Sorted tsLe (tl ++ rest) := (List.sorted_cons.mp (by simpa using hs)).2
    have hp' : ∀ r ∈ tl ++ rest, 0 ≤ jsOr0 r.power := by
      intro r hr
      exact hp r (by simp at hr ⊢; tauto)
    calc trapSum rest ≤ trapSum (tl ++ rest) := ih rest hs' hp'
      _ ≤ trapSum (a :: (tl ++ rest)) := trapSum_cons_ge a _ (by simpa using hs) (by simpa using hp)
      _ = trapSum ((a :: tl) ++ rest) := by simp

lemma sum_map_sub_mul (L : List (ℕ × ℚ)) (a b : ℚ) :
    (L.map (fun p => ((p.1 : ℚ) - a) * (p.2 - b))).sum =
      (L.map (fun p => (p.1 : ℚ) * p.2)).sum - a * (L.map (fun p => p.2)).sum -
        b * (L.map (fun p => (p.1 : ℚ))).sum + L.length * (a * b) := by
  induction L with
  | nil => simp
  | cons x xs ih =>
    simp only [List.map_cons, List.sum_cons, ih, List.length_cons]
    push_cast
    ring

lemma sum_map_sub_sq (L : List (ℕ × ℚ)) (a : ℚ) :
    (L.map (fun p => ((p.1 : ℚ) - a) ^ 2)).sum =
      (L.map (fun p => (p.1 : ℚ) * (p.1 : ℚ))).sum -
        2 * a * (L.map (fun p => (p.1 : ℚ))).sum + L.length * (a ^ 2) := by
  induction L with
  | nil => simp
  | cons x xs ih =>
    simp only [List.map_cons, List.sum_cons, ih, List.length_cons]
    push_cast
    ring

lemma enum_map_fst_sum (l : List ℚ) (f : ℕ → ℚ) :
    (l.enum.map (fun p => f p.1)).sum = ((List.range l.length).map f).sum := by
  rw [show (l.enum.map fun p => f p.1) = (l.enum.map Prod.fst).map f from by
      rw [List.map_map]; rfl,
    List.enum_map_fst]

lemma enum_map_snd_sum (l : List ℚ) :
    (l.enum.map (fun p => p.2)).sum = l.sum := by
  rw [show (l.enum.map fun p => p.2) = l.enum.map Prod.snd from rfl, List.enum_map_snd]

lemma sum_range_cast (n : ℕ) :
    ((List.range n).map (fun (i : ℕ) => (i : ℚ))).sum = n * (n - 1) / 2 := by
  induction n with
  | zero => simp
  | succ m ih =>
    rw [List.range_succ, List.map_append, List.sum_append, ih]
    simp only [List.map_cons, List.map_nil, List.sum_cons, List.sum_nil]
    push_cast
    ring

lemma sum_range_sq_cast (n : ℕ) :
    ((List.range n).map (fun (i : ℕ) => (i : ℚ) * (i : ℚ))).sum =
      n * (n - 1) * (2 * n - 1) / 6 := by
  induction n with
  | zero => simp
  | succ m ih =>
    rw [List.range_succ, List.map_append, List.sum_append, ih]
    simp only [List.map_cons, List.map_nil, List.sum_cons, List.sum_nil]
    push_cast
    ring

lemma ols_denom_pos (data : List ℚ) (h : 2 ≤ data.length) :
    0 < (data.length : ℚ) * (data.enum.map (fun p => (p.1 : ℚ) * (p.1 : ℚ))).sum -
      (data.enum.map (fun p => (p.1 : ℚ))).sum *
        (data.enum.map (fun p => (p.1 : ℚ))).sum := by
  have hS1 : (data.enum.map (fun p => (p.1 : ℚ))).sum =
      (data.length : ℚ) * ((data.length : ℚ) - 1) / 2 := by
    rw [enum_map_fst_sum data (fun (i : ℕ) => (i : ℚ)), sum_range_cast]
  have hS4 : (data.enum.map (fun p => (p.1 : ℚ) * (p.1 : ℚ))).sum =
      (data.length : ℚ) * ((data.length : ℚ) - 1) *
        (2 * (data.length : ℚ) - 1) / 6 := by
    rw [enum_map_fst_sum data (fun (i : ℕ) => (i : ℚ) * (i : ℚ)), sum_range_sq_cast]
  rw [hS1, hS4]
  have hn : (2 : ℚ) ≤ (data.length : ℚ) := by exact_mod_cast h
  have key : (data.length : ℚ) *
        ((data.length : ℚ) * ((data.length : ℚ) - 1) * (2 * (data.length : ℚ) - 1) / 6) -
        (data.length : ℚ) * ((data.length : ℚ) - 1) / 2 *
          ((data.length : ℚ) * ((data.length : ℚ) - 1) / 2) =
      (data.length : ℚ) ^ 2 * ((data.length : ℚ) - 1) * ((data.length : ℚ) + 1) / 12 := by
    ring
  rw [key]
  have h1 : (0 : ℚ) < (data.length : ℚ) - 1 := by linarith
  have h2 : (0 : ℚ) < (data.length : ℚ) + 1 := by linarith
  have h3 : (0 : ℚ) < (data.length : ℚ) ^ 2 := by nlinarith
  apply div_pos _ (by norm_num)
  exact mul_pos (mul_pos h3 h1) h2

lemma olsSlope_eq (data : List ℚ) (h : 2 ≤ data.length) :
    olsSlope data =
      ((data.length : ℚ) * (data.enum.map (fun p => (p.1 : ℚ) * p.2)).sum -
          (data.enum.map (fun p => (p.1 : ℚ))).sum *
            (data.enum.map (fun p => p.2)).sum) /
        ((data.length : ℚ) * (data.enum.map (fun p => (p.1 : ℚ) * (p.1 : ℚ))).sum -
          (data.enum.map (fun p => (p.1 : ℚ))).sum *
            (data.enum.map (fun p => (p.1 : ℚ))).sum) := by
  have hD := ols_denom_pos data h
  have hn : (0 : ℚ) < (data.length : ℚ) := by
    have : 0 < data.length := by omega
    exact_mod_cast this
  rw [olsSlope, olsMeanX, olsMeanY, sum_map_sub_mul, sum_map_sub_sq, List.enum_length,
    (enum_map_snd_sum data).symm]
  set n : ℚ := (data.length : ℚ)
  set S1 := (data.enum.map (fun p => (p.1 : ℚ))).sum
  set S2 := (data.enum.map (fun p => p.2)).sum
  set S3 := (data.enum.map (fun p => (p.1 : ℚ) * p.2)).sum
  set S4 := (data.enum.map (fun p => (p.1 : ℚ) * (p.1 : ℚ))).sum
  have hden_eq : S4 - 2 * (S1 / n) * S1 + n * (S1 / n) ^ 2 = (n * S4 - S1 * S1) / n := by
    field_simp
    ring
  rw [hden_eq]
  field_simp
  ring

lemma olsMeanY_eq (data : List ℚ) :
    olsMeanY data = (data.enum.map (fun p => p.2)).sum / (data.length : ℚ) := by
  rw [olsMeanY, enum_map_snd_sum]

lemma olsIntercept_eq (data : List ℚ) (h : 2 ≤ data.length) :
    olsIntercept data =
      ((data.enum.map (fun p => p.2)).sum -
          olsSlope data * (data.enum.map (fun p => (p.1 : ℚ))).sum) /
        (data.length : ℚ) := by
  have hn : (0 : ℚ) < (data.length : ℚ) := by
    have : 0 < data.length := by omega
    exact_mod_cast this
  rw [olsIntercept, olsMeanY_eq, olsMeanX]
  field_simp

lemma olsR2_eq (data : List ℚ) :
    olsR2 data =
      if (data.enum.map
            (fun p => (p.2 - (data.enum.map (fun q => q.2)).sum / (data.length : ℚ)) ^ 2)).sum
          > 0 then
        1 - (data.enum.map
              (fun p => (p.2 - (olsSlope data * (p.1 : ℚ) + olsIntercept data)) ^ 2)).sum /
            (data.enum.map
              (fun p => (p.2 - (data.enum.map (fun q => q.2)).sum / (data.length : ℚ)) ^ 2)).sum
      else 0 := by
  rw [olsR2, olsMeanY_eq]

lemma lookupG_update (gs : List (String × Group)) (key k : String) (r : Reading) :
    lookupG k (updateGroups key r gs) =
      if key = k then some (pushFields r ((lookupG k gs).getD (initGroup k)))
      else lookupG k gs := by
  induction gs with
  | nil =>
    by_cases h : key = k
    · subst h
      simp [updateGroups, lookupG]
    · simp [updateGroups, lookupG, h]
  | cons p rest ih =>
    obtain ⟨k', g⟩ := p
    rw [updateGroups]
    by_cases h1 : k' = key
    · rw [if_pos h1]
      subst h1
      by_cases h2 : k' = k
      · subst h2
        simp [lookupG]
      · simp [lookupG, h2]
    · rw [if_neg h1]
      by_cases h2 : k' = k
      · subst h2
        rw [lookupG, if_pos rfl, if_neg (fun he => h1 he.symm), lookupG, if_pos rfl]
      · simp only [lookupG, if_neg h2]
        exact ih

lemma fieldSamples_nil (field : Reading → Option ℚ) (interval : Interval) (k : String) :
    fieldSamples field interval k [] = [] := rfl

lemma fieldSamples_cons (field : Reading → Option ℚ) (interval : Interval) (k : String)
    (r : Reading) (l : List Reading) :
    fieldSamples field interval k (r :: l) =
      (if bucketKey interval r.timestamp = k ∧ truthy (field r) = true
        then [jsOr0 (field r)] else []) ++
        fieldSamples field interval k l := by
  rw [fieldSamples, List.filter_cons]
  by_cases h1 : bucketKey interval r.timestamp = k <;>
    by_cases h2 : truthy (field r) = true <;>
      simp [fieldSamples, h1, h2]

lemma lookupG_fold (interval : Interval) :
    ∀ (l : List Reading) (gs : List (String × Group)) (k : String) (g : Group),
      lookupG k
          (l.foldl (fun acc r => updateGroups (bucketKey interval r.timestamp) r acc) gs) =
        some g →
      g.voltages = ((lookupG k gs).getD (initGroup k)).voltages ++
          fieldSamples (fun r => r.voltage) interval k l ∧
      g.currents = ((lookupG k gs).getD (initGroup k)).currents ++
          fieldSamples (fun r => r.current) interval k l ∧
      g.temperatures = ((lookupG k gs).getD (initGroup k)).temperatures ++
          fieldSamples (fun r => r.temperature) interval k l ∧
      g.powers = ((lookupG k gs).getD (initGroup k)).powers ++
          fieldSamples (fun r => r.power) interval k l := by
  intro l
  induction l with
  | nil =>
    intro gs k g hg
    simp only [List.foldl_nil] at hg
    rw [hg]
    simp [fieldSamples_nil]
  | cons r l ih =>
    intro gs k g hg
    simp only [List.foldl_cons] at hg
    have hrec := ih _ k g hg
    rw [lookupG_update] at hrec
    by_cases hk : bucketKey interval r.timestamp = k
    · rw [if_pos hk, Option.getD_some] at hrec
      obtain ⟨h1, h2, h3, h4⟩ := hrec
      refine ⟨?_, ?_, ?_, ?_⟩
      · rw [h1]; simp [pushFields, fieldSamples_cons, hk, List.append_assoc]
      · rw [h2]; simp [pushFields, fieldSamples_cons, hk, List.append_assoc]
      · rw [h3]; simp [pushFields, fieldSamples_cons, hk, List.append_assoc]
      · rw [h4]; simp [pushFields, fieldSamples_cons, hk, List.append_assoc]
    · rw [if_neg hk] at hrec
      obtain ⟨h1, h2, h3, h4⟩ := hrec
      refine ⟨?_, ?_, ?_, ?_⟩
      · rw [h1]; simp [fieldSamples_cons, hk]
      · rw [h2]; simp [fieldSamples_cons, hk]
      · rw [h3]; simp [fieldSamples_cons, hk]
      · rw [h4]; simp [fieldSamples_cons, hk]

lemma keys_updateGroups (key : String) (r : Reading) :
    ∀ gs : List (String × Group),
      (updateGroups key r gs).map Prod.fst =
        if key ∈ gs.map Prod.fst then gs.map Prod.fst
        else gs.map Prod.fst ++ [key] := by
  intro gs
  induction gs with
  | nil => simp [updateGroups]
  | cons p rest ih =>
    obtain ⟨k', g⟩ := p
    rw [updateGroups]
    by_cases h : k' = key
    · subst h
      simp [List.mem_cons]
    · rw [if_neg h]
      simp only [List.map_cons, List.mem_cons]
      rw [ih]
      by_cases hm : key ∈ rest.map Prod.fst
      · simp [hm]
      · have hne : ¬key = k' := fun he => h he.symm
        simp [hm, hne]

lemma keys_nodup_fold (interval : Interval) :
    ∀ (l : List Reading) (gs : List (String × Group)),
      (gs.map Prod.fst).Nodup →
      ((l.foldl (fun acc r => updateGroups (bucketKey interval r.timestamp) r acc)
          gs).map Prod.fst).Nodup := by
  intro l
  induction l with
  | nil => intro gs h; simpa using h
  | cons r l ih =>
    intro gs h
    rw [List.foldl_cons]
    apply ih
    rw [keys_updateGroups]
    split
    · exact h
    case isFalse hnm =>
      simp [List.nodup_append, h, hnm]

lemma lookupG_of_mem :
    ∀ (gs : List (String × Group)), (gs.map Prod.fst).Nodup →
      ∀ (k : String) (g : Group), (k, g) ∈ gs → lookupG k gs = some g := by
  intro gs
  induction gs with
  | nil => intro _ k g h; simp at h
  | cons p rest ih =>
    obtain ⟨k', g'⟩ := p
    intro hnd k g hmem
    rcases List.mem_cons.mp hmem with heq | hmem'
    · have h1 : k = k' := congrArg Prod.fst heq
      have h2 : g = g' := congrArg Prod.snd heq
      subst h1
      subst h2
      rw [lookupG, if_pos rfl]
    · have hmm : k ∈ rest.map Prod.fst := List.mem_map_of_mem Prod.fst hmem'
      rw [List.map_cons, List.nodup_cons] at hnd
      have hk : ¬k' = k := fun he => hnd.1 (he ▸ hmm)
      rw [lookupG, if_neg hk]
      exact ih hnd.2 k g hmem'

/-- Claim C1, counterexample: inserting a zero-power reading strictly inside the span lowers the trapezoidal energy: the full list computes 0.01 kWh while the subset with the same first and last timestamps computes 0.02 kWh. -/
theorem energy_insertion_counterexample :
    calculateEnergyConsumption [rA, rB, rC] = 1/100 ∧
    calculateEnergyConsumption [rA, rC] = 1/50 ∧
    List.Sublist [rA, rC] [rA, rB, rC] ∧
    [rA, rC].head? = [rA, rB, rC].head? ∧
    [rA, rC].getLast? = [rA, rB, rC].getLast? ∧
    ((1:ℚ)/100 < 1/50) := by
  refine ⟨?_, ?_, ?_, rfl, rfl, by norm_num⟩
  · norm_num [calculateEnergyConsumption, sortByTimestamp, List.insertionSort,
      List.orderedInsert, tsLe, trapSum, jsOr0, rA, rB, rC]
  · norm_num [calculateEnergyConsumption, sortByTimestamp, List.insertionSort,
      List.orderedInsert, tsLe, trapSum, jsOr0, rA, rB, rC]
  · exact List.Sublist.cons₂ rA (List.Sublist.cons rB (List.Sublist.cons₂ rC List.Sublist.slnil))

/-- Claim C1 (amended): with non-negative powers, the energy of the full list is at least the energy computed for any contiguous segment of its time-sorted order; interior insertions may lower the estimate, so the original subset claim holds only for such segments. -/
theorem energy_monotone_contiguous :
    ∀ (l l₁ l₂ l₃ : List Reading),
      (∀ r ∈ l, 0 ≤ jsOr0 r.power) →
      sortByTimestamp l = l₁ ++ l₂ ++ l₃ →
      calculateEnergyConsumption l₂ ≤ calculateEnergyConsumption l := by
  intro l l₁ l₂ l₃ hp hsplit
  have hsort : List.Sorted tsLe (sortByTimestamp l) := List.sorted_insertionSort _ _
  have hmem : ∀ r ∈ sortByTimestamp l, 0 ≤ jsOr0 r.power := fun r hr =>
    hp r ((List.mem_insertionSort _).mp hr)
  rw [hsplit] at hsort hmem
  rw [List.append_assoc] at hsort hmem hsplit
  by_cases h2 : l₂.length < 2
  · rw [calculateEnergyConsumption, if_pos h2]
    exact calculateEnergyConsumption_nonneg l hp
  · have hsub23 : (l₂ ++ l₃).Sublist (l₁ ++ (l₂ ++ l₃)) := List.sublist_append_right _ _
    have hsub2 : l₂.Sublist (l₁ ++ (l₂ ++ l₃)) :=
      (List.sublist_append_left l₂ l₃).trans hsub23
    have hl2sorted : List.Sorted tsLe l₂ := hsort.sublist hsub2
    have hLHS : calculateEnergyConsumption l₂ = trapSum l₂ / 1000 := by
      rw [calculateEnergyConsumption, if_neg h2, sortByTimestamp,
        hl2sorted.insertionSort_eq]
    have hlen : ¬l.length < 2 := by
      have hlenq : (sortByTimestamp l).length = l.length :=
        (List.perm_insertionSort tsLe l).length_eq
      rw [hsplit] at hlenq
      simp only [List.length_append] at hlenq
      omega
    rw [hLHS, calculateEnergyConsumption, if_neg hlen, hsplit]
    gcongr
    calc trapSum l₂ ≤ trapSum (l₂ ++ l₃) :=
          trapSum_append_ge l₂ l₃ (hsort.sublist hsub23)
            (fun r hr => hmem r (hsub23.subset hr))
      _ ≤ trapSum (l₁ ++ (l₂ ++ l₃)) := trapSum_front_ge l₁ (l₂ ++ l₃) hsort hmem

/-- Witness for the amended claim C1 at concrete readings. -/
theorem energy_monotone_contiguous_witness :
    calculateEnergyConsumption [rA, rB] ≤ calculateEnergyConsumption [rB, rA, rC] :=
  energy_monotone_contiguous [rB, rA, rC] [] [rA, rB] [rC]
    (by
      intro r hr
      simp only [List.mem_cons, List.not_mem_nil, or_false] at hr
      rcases hr with rfl | rfl | rfl <;> norm_num [jsOr0, rA, rB, rC])
    (by
      norm_num [sortByTimestamp, List.insertionSort, List.orderedInsert, tsLe, rA, rB, rC])

/-- Claim C2 (amended): the buckets are sorted ascending by their key string under lexical comparison, and keys are pairwise distinct; the chronological-correctness part of the claim is refuted separately. -/
theorem timeSeries_sorted_by_key :
    ∀ (l : List Reading) (interval : Interval),
      List.Sorted keyLe (generateTimeSeriesData l interval) ∧
      ((generateTimeSeriesData l interval).map Bucket.timestamp).Nodup := by
  intro l interval
  constructor
  · exact List.sorted_insertionSort _ _
  · have hperm : (generateTimeSeriesData l interval).Perm
        ((groupReadings interval l).map fun p => mkBucket p.1 p.2) :=
      List.perm_insertionSort _ _
    have hmapperm := hperm.map Bucket.timestamp
    rw [hmapperm.nodup_iff, List.map_map]
    have hcomp : (Bucket.timestamp ∘ fun p : String × Group => mkBucket p.1 p.2) =
        Prod.fst := rfl
    rw [hcomp, groupReadings]
    exact keys_nodup_fold interval l [] (by simp)

/-- Claim C2, counterexample: keys are not zero-padded, so the bucket of the chronologically later reading (hour 10) sorts before the bucket of the earlier reading (hour 2): lexical order is not chronological. -/
theorem timeSeries_lexical_not_chronological :
    bucketKey Interval.hour rH2.timestamp = "2024-5-1 2:00" ∧
    bucketKey Interval.hour rH10.timestamp = "2024-5-1 10:00" ∧
    rH2.timestamp.ms < rH10.timestamp.ms ∧
    (generateTimeSeriesData [rH2, rH10] Interval.hour).map Bucket.timestamp =
      ["2024-5-1 10:00", "2024-5-1 2:00"] := by
  have hk2 : bucketKey Interval.hour rH2.timestamp = "2024-5-1 2:00" := by decide
  have hk10 : bucketKey Interval.hour rH10.timestamp = "2024-5-1 10:00" := by decide
  have hne : ("2024-5-1 2:00" : String) ≠ "2024-5-1 10:00" := by decide
  have hle : ¬("2024-5-1 2:00" : String) ≤ "2024-5-1 10:00" := by
    rw [String.le_iff_toList_le]
    decide
  refine ⟨hk2, hk10, by norm_num [rH2, rH10], ?_⟩
  simp only [generateTimeSeriesData, groupReadings, List.foldl_cons, List.foldl_nil,
    hk2, hk10, updateGroups, if_neg hne, List.map_cons, List.map_nil,
    List.insertionSort, List.orderedInsert]
  rw [if_neg (by simpa [mkBucket, keyLe] using hle)]
  simp [mkBucket]

/-- Claim C3, counterexample: calculateEnergyConsumption sorts its input array in place, so an unsorted argument is reordered after the call. -/
theorem energy_sorts_in_place_counterexample :
    calculateEnergyConsumptionPost [rC, rA] = [rA, rC] ∧ [rA, rC] ≠ [rC, rA] := by
  constructor
  · norm_num [calculateEnergyConsumptionPost, sortByTimestamp, List.insertionSort,
      List.orderedInsert, tsLe, rA, rC]
  · simp only [ne_eq, List.cons.injEq, not_and]
    intro h
    rw [rA, rC] at h
    simp only [Reading.mk.injEq, DateTime.mk.injEq] at h
    norm_num at h

/-- Claim C3 (amended): after the call the input array holds the same readings as a multiset, but in ascending-timestamp order; the original order is preserved only when the input was already sorted. -/
theorem energy_permutes_and_sorts :
    ∀ l : List Reading,
      (calculateEnergyConsumptionPost l).Perm l ∧
      List.Sorted tsLe (calculateEnergyConsumptionPost l) := by
  intro l
  rw [calculateEnergyConsumptionPost]
  split
  case isTrue h =>
    refine ⟨List.Perm.refl l, ?_⟩
    rcases l with _ | ⟨a, _ | ⟨b, tl⟩⟩
    · exact List.sorted_nil
    · exact List.sorted_singleton a
    · simp only [List.length_cons] at h
      exact absurd h (by omega)
  case isFalse h =>
    exact ⟨List.perm_insertionSort _ _, List.sorted_insertionSort _ _⟩

/-- Claim C4 (amended): every produced bucket averages exactly the readings of its key whose field is present AND non-zero (JS truthiness), with the stated rounding, and `readings` counts the voltage samples; the 12 V / 13 V same-hour scenario gives mean 12.5 and count 2 as claimed. -/
theorem timeSeries_bucket_mean_amended :
    (∀ (interval : Interval) (l : List Reading) (b : Bucket),
        b ∈ generateTimeSeriesData l interval →
        b.voltage =
            roundTo 2 (avgOr0 (fieldSamples (fun r => r.voltage) interval b.timestamp l)) ∧
        b.current =
            roundTo 3 (avgOr0 (fieldSamples (fun r => r.current) interval b.timestamp l)) ∧
        b.temperature =
            roundTo 1 (avgOr0 (fieldSamples (fun r => r.temperature) interval b.timestamp l)) ∧
        b.power =
            roundTo 1 (avgOr0 (fieldSamples (fun r => r.power) interval b.timestamp l)) ∧
        b.readings = (fieldSamples (fun r => r.voltage) interval b.timestamp l).length) ∧
    generateTimeSeriesData [rv12, rv13] Interval.hour =
      [⟨"2024-5-1 12:00", 25/2, 1, 25, 25/2, 2⟩] := by
  constructor
  · intro interval l b hb
    rw [generateTimeSeriesData] at hb
    have hb' := (List.mem_insertionSort keyLe).mp hb
    obtain ⟨⟨k, g⟩, hmem, hbk⟩ := List.mem_map.mp hb'
    rw [groupReadings] at hmem
    have hnd := keys_nodup_fold interval l [] (by simp)
    have hlk := lookupG_of_mem _ hnd k g hmem
    have hinv := lookupG_fold interval l [] k g hlk
    simp only [lookupG, Option.getD_none, initGroup, List.nil_append] at hinv
    obtain ⟨h1, h2, h3, h4⟩ := hinv
    subst hbk
    refine ⟨?_, ?_, ?_, ?_, ?_⟩ <;>
      simp [mkBucket, h1, h2, h3, h4]
  · norm_num [generateTimeSeriesData, groupReadings, updateGroups, pushFields, initGroup,
      bucketKey, mkBucket, avgOr0, roundTo, round_eq, truthy, jsOr0,
      List.insertionSort, List.orderedInsert, rv12, rv13, dt0]
    decide

/-- Witness for the amended claim C4 at the two-reading scenario. -/
theorem timeSeries_bucket_mean_witness :
    (⟨"2024-5-1 12:00", 25/2, 1, 25, 25/2, 2⟩ : Bucket).voltage =
      roundTo 2 (avgOr0 (fieldSamples (fun r => r.voltage) Interval.hour
        "2024-5-1 12:00" [rv12, rv13])) :=
  (timeSeries_bucket_mean_amended.1 Interval.hour [rv12, rv13]
    ⟨"2024-5-1 12:00", 25/2, 1, 25, 25/2, 2⟩
    (timeSeries_bucket_mean_amended.2.symm ▸ List.mem_singleton.mpr rfl)).1

/-- Claim C4, counterexample: a present voltage of exactly 0 is excluded from the mean and the count, so two same-hour readings with voltages 0 and 13 give bucket voltage 13 and readings 1, not mean 6.5 and count 2. -/
theorem timeSeries_zero_voltage_counterexample :
    generateTimeSeriesData [rv0, rv13] Interval.hour =
      [⟨"2024-5-1 12:00", 13, 1, 25, 13, 1⟩] ∧
    (13 : ℚ) ≠ roundTo 2 ((0 + 13) / 2) ∧ (1 : ℕ) ≠ 2 := by
  refine ⟨?_, ?_, by decide⟩
  · norm_num [generateTimeSeriesData, groupReadings, updateGroups, pushFields, initGroup,
      bucketKey, mkBucket, avgOr0, roundTo, round_eq, truthy, jsOr0,
      List.insertionSort, List.orderedInsert, rv0, rv13, dt0]
    decide
  · rw [roundTo, round_eq]
    norm_num

/-- Claim C5: filterRecentDuplicates keeps exactly the first alert per key type_round(value*10); 11.51 and 11.54 collapse to the first (both key 115), 11.51 and 11.65 are both kept since 116.5 rounds half-up to 117. -/
theorem filterRecentDuplicates_keeps_first :
    (∀ l : List Alert, filterRecentDuplicates l = keepFirstByKey l) ∧
    filterRecentDuplicates
        [⟨"voltage_drop", "high", "first", 1151/100⟩,
         ⟨"voltage_drop", "high", "second", 1154/100⟩] =
      [⟨"voltage_drop", "high", "first", 1151/100⟩] ∧
    filterRecentDuplicates
        [⟨"voltage_drop", "high", "first", 1151/100⟩,
         ⟨"voltage_drop", "high", "third", 1165/100⟩] =
      [⟨"voltage_drop", "high", "first", 1151/100⟩,
       ⟨"voltage_drop", "high", "third", 1165/100⟩] ∧
    alertKey ⟨"voltage_drop", "high", "third", 1165/100⟩ = "voltage_drop_117" := by
  have k51 : alertKey ⟨"voltage_drop", "high", "first", 1151/100⟩ = "voltage_drop_115" := by
    rw [alertKey, show round ((1151:ℚ)/100 * 10) = 115 from by rw [round_eq]; norm_num]
    decide
  have k54 : alertKey ⟨"voltage_drop", "high", "second", 1154/100⟩ = "voltage_drop_115" := by
    rw [alertKey, show round ((1154:ℚ)/100 * 10) = 115 from by rw [round_eq]; norm_num]
    decide
  have k65 : alertKey ⟨"voltage_drop", "high", "third", 1165/100⟩ = "voltage_drop_117" := by
    rw [alertKey, show round ((1165:ℚ)/100 * 10) = 117 from by rw [round_eq]; norm_num]
    decide
  refine ⟨?_, ?_, ?_, k65⟩
  · intro l
    rw [filterRecentDuplicates, dedupGo_eq_keepFirst]
    congr 1
    simp
  · simp only [filterRecentDuplicates, dedupGo, k51, k54]
    simp
  · simp only [filterRecentDuplicates, dedupGo, k51, k65]
    simp

/-- Claim C6: energy is 0 below two readings and non-negative for non-negative powers, and analyzeTrend returns exactly slope 0, r2 0 (and no intercept property) on inputs of length 0 or 1. -/
theorem degenerate_inputs_defined :
    (∀ l : List Reading, l.length < 2 → calculateEnergyConsumption l = 0) ∧
    (∀ l : List Reading, (∀ r ∈ l, 0 ≤ jsOr0 r.power) →
      0 ≤ calculateEnergyConsumption l) ∧
    analyzeTrend [] = ⟨0, none, 0⟩ ∧
    (∀ x : ℚ, analyzeTrend [x] = ⟨0, none, 0⟩) := by
  refine ⟨?_, ?_, ?_, ?_⟩
  · intro l h
    rw [calculateEnergyConsumption, if_pos h]
  · intro l hp
    rw [calculateEnergyConsumption]
    split
    · exact le_refl 0
    · apply div_nonneg _ (by norm_num)
      apply trapSum_nonneg
      · exact List.sorted_insertionSort _ _
      · intro r hr
        exact hp r ((List.mem_insertionSort _).mp hr)
  · simp [analyzeTrend]
  · intro x
    simp [analyzeTrend]

/-- Witness for claim C6 at concrete inputs. -/
theorem degenerate_inputs_defined_witness :
    calculateEnergyConsumption [] = 0 ∧
    0 ≤ calculateEnergyConsumption
        [⟨⟨0, 2024, 4, 1, 0, "2024-05-01"⟩, some 12, some 1, some 25, some 12⟩] ∧
    analyzeTrend [3] = ⟨0, none, 0⟩ :=
  ⟨degenerate_inputs_defined.1 [] (by norm_num),
   degenerate_inputs_defined.2.1 _
     (by intro r hr; rw [List.mem_singleton] at hr; subst hr; norm_num [jsOr0]),
   degenerate_inputs_defined.2.2.2 3⟩

/-- Claim C7: analyzeTrend computes ordinary least squares against the 0-based index with R-squared against the mean, each rounded to 4 decimals, and returns slope 1, intercept 0, r2 1 on [0,1,2,3,4]. -/
theorem analyzeTrend_is_ols :
    (∀ data : List ℚ, 2 ≤ data.length →
      analyzeTrend data =
        ⟨roundTo 4 (olsSlope data), some (roundTo 4 (olsIntercept data)),
          roundTo 4 (olsR2 data)⟩) ∧
    analyzeTrend [0, 1, 2, 3, 4] = ⟨1, some 0, 1⟩ ∧
    analyzeTrend [3, 5, 7] = ⟨2, some 3, 1⟩ := by
  refine ⟨?_, ?_, ?_⟩
  · intro data h
    rw [analyzeTrend, if_neg (by omega)]
    rw [olsR2_eq data, olsIntercept_eq data h, olsSlope_eq data h]
  · norm_num [analyzeTrend, List.enum, List.enumFrom, roundTo, round_eq]
  · norm_num [analyzeTrend, List.enum, List.enumFrom, roundTo, round_eq]

/-- Witness for claim C7 at the five-point input. -/
theorem analyzeTrend_is_ols_witness :
    analyzeTrend [0, 1, 2, 3, 4] =
      ⟨roundTo 4 (olsSlope [0, 1, 2, 3, 4]),
        some (roundTo 4 (olsIntercept [0, 1, 2, 3, 4])),
        roundTo 4 (olsR2 [0, 1, 2, 3, 4])⟩ :=
  analyzeTrend_is_ols.1 [0, 1, 2, 3, 4] (by norm_num)

/-- Claim C8: determineStatus implements the spec's precedence rules (voltage absent or below 10 critical, else current absent or below 0.1 warning, else temperature above 60 warning, else normal), and the 9.5 V scenario is critical. -/
theorem determineStatus_matches_spec :
    (∀ d : Reading, determineStatus d = specStatus d) ∧
    determineStatus ⟨dt0, some (19/2), some 0, some 30, none⟩ = "critical" := by
  constructor
  · intro d
    rcases d with ⟨ts, v?, c?, t?, p?⟩
    rcases v? with _ | v
    · simp [determineStatus, specStatus, truthy, jsLtNull]
    · rcases eq_or_ne v 0 with hv | hv
      · subst hv
        simp [determineStatus, specStatus, truthy, jsLtNull]
      · rcases lt_or_le v 10 with hv10 | hv10
        · simp [determineStatus, specStatus, truthy, jsLtNull, hv, hv10]
        · rcases c? with _ | c
          · simp [determineStatus, specStatus, truthy, jsLtNull, hv, hv10, not_lt.mpr hv10]
          · rcases eq_or_ne c 0 with hc | hc
            · subst hc
              simp [determineStatus, specStatus, truthy, jsLtNull, hv, not_lt.mpr hv10]
            · rcases lt_or_le c (1/10) with hc10 | hc10 <;> rw [one_div] at hc10
              · simp [determineStatus, specStatus, truthy, jsLtNull, one_div, hv, hc, hc10, not_lt.mpr hv10]
              · rcases t? with _ | t
                · simp [determineStatus, specStatus, truthy, jsLtNull, jsGtNull, hv, hc,
                    not_lt.mpr hv10, not_lt.mpr hc10]
                · rcases eq_or_ne t 0 with ht | ht
                  · subst ht
                    simp [determineStatus, specStatus, truthy, jsLtNull, jsGtNull, hv, hc,
                      not_lt.mpr hv10, not_lt.mpr hc10]
                    norm_num
                  · rcases lt_or_le (60 : ℚ) t with ht60 | ht60
                    · simp [determineStatus, specStatus, truthy, jsLtNull, jsGtNull, hv, hc,
                        not_lt.mpr hv10, not_lt.mpr hc10, ht, ht60]
                    · simp [determineStatus, specStatus, truthy, jsLtNull, jsGtNull, hv, hc,
                        not_lt.mpr hv10, not_lt.mpr hc10, ht, not_lt.mpr ht60]
  · norm_num [determineStatus, truthy, jsLtNull]

/-- Claim C9, counterexample: with previous voltage 14 present and a drop of 14 above the threshold, a current voltage measuring exactly 0 yields no anomaly at all, refuting the claimed emission condition. -/
theorem voltageDrop_zero_voltage_counterexample :
    detectAnomalies (some ⟨dt0, some 0, some 5, some 30, none⟩)
        (some ⟨dt0, some 14, some 5, some 30, none⟩) = [] ∧
    (14 : ℚ) - 0 > 2 := by
  constructor
  · norm_num [detectAnomalies, truthy, jsGtNull, jsLtNull]
  · norm_num

/-- Claim C9 (amended): a voltage_drop anomaly is emitted exactly when both the previous and the current voltage are present and non-zero and the drop exceeds 2.0, with severity critical if the drop exceeds 5.0 and warning otherwise; the 14.2 to 11.0 scenario yields warning. -/
theorem voltageDrop_emission :
    (∀ (d prev : Reading) (pv cv : ℚ),
        d.voltage = some cv → cv ≠ 0 → prev.voltage = some pv → pv ≠ 0 →
        pv - cv > 2 →
        (detectAnomalies (some d) (some prev)).filter
            (fun a => a.type == "voltage_drop") =
          [⟨"voltage_drop", if pv - cv > 5 then "critical" else "warning",
            "Sudden voltage drop detected: " ++ ratToFixed 2 (pv - cv) ++ "V",
            some cv, some pv⟩]) ∧
    (∀ (d : Reading) (p : Option Reading) (a : Anomaly),
        a ∈ detectAnomalies (some d) p → a.type = "voltage_drop" →
        ∃ (prev : Reading) (pv cv : ℚ), p = some prev ∧ prev.voltage = some pv ∧
          d.voltage = some cv ∧ cv ≠ 0 ∧ pv ≠ 0 ∧ pv - cv > 2) ∧
    detectAnomalies (some ⟨dt0, some 11, some 5, some 20, none⟩)
        (some ⟨dt0, some (71/5), some 5, some 20, none⟩) =
      [⟨"voltage_drop", "warning", "Sudden voltage drop detected: 3.20V",
        some 11, some (71/5)⟩] := by
  refine ⟨?_, ?_, ?_⟩
  · intro d prev pv cv hcv hcvz hpv hpvz hdrop
    simp only [detectAnomalies, hcv, hpv]
    have h1 : truthy (some cv) = true := by simp [truthy, hcvz]
    have h2 : truthy (some pv) = true := by simp [truthy, hpvz]
    simp only [h1, h2, Bool.and_self, if_true, jsOr0]
    rw [if_pos hdrop]
    simp only [List.filter_append, List.filter_cons, List.filter_nil]
    norm_num
    constructor
    · rintro a _ _ rfl
      simp
    · rintro a _ _ rfl
      simp
  · intro d p a ha hty
    simp only [detectAnomalies] at ha
    rcases List.mem_append.mp ha with h | hC
    · rcases List.mem_append.mp h with hA | hB
      · rcases p with _ | prev
        · simp at hA
        · simp only at hA
          split at hA
          case isFalse => simp at hA
          case isTrue hguard =>
            split at hA
            case isFalse => simp at hA
            case isTrue hdrop =>
              rw [Bool.and_eq_true] at hguard
              obtain ⟨cv, hcv, hcvz⟩ := truthy_iff.mp hguard.1
              obtain ⟨pv, hpv, hpvz⟩ := truthy_iff.mp hguard.2
              refine ⟨prev, pv, cv, rfl, hpv, hcv, hcvz, hpvz, ?_⟩
              rw [hcv, hpv] at hdrop
              simpa [jsOr0] using hdrop
      · split at hB
        · simp only [List.mem_singleton] at hB
          subst hB
          simp at hty
        · simp at hB
    · split at hC
      · simp only [List.mem_singleton] at hC
        subst hC
        simp at hty
      · simp at hC
  · have hfix : ratToFixed 2 ((16:ℚ)/5) = "3.20" := by
      rw [ratToFixed]
      norm_num [round_eq]
      decide
    have hmsg : "Sudden voltage drop detected: " ++ ratToFixed 2 ((16:ℚ)/5) ++ "V" =
        "Sudden voltage drop detected: 3.20V" := by
      rw [hfix]
      decide
    norm_num [detectAnomalies, truthy, jsGtNull, jsLtNull, jsOr0, hmsg]

/-- Witness for the amended claim C9 at the 14.2 / 11.0 scenario. -/
theorem voltageDrop_emission_witness :
    (detectAnomalies (some ⟨dt0, some 11, some 5, some 20, none⟩)
        (some ⟨dt0, some (71/5), some 5, some 20, none⟩)).filter
        (fun a => a.type == "voltage_drop") =
      [⟨"voltage_drop", if (71:ℚ)/5 - 11 > 5 then "critical" else "warning",
        "Sudden voltage drop detected: " ++ ratToFixed 2 ((71:ℚ)/5 - 11) ++ "V",
        some 11, some (71/5)⟩] :=
  voltageDrop_emission.1 _ _ (71/5) 11 rfl (by norm_num) rfl (by norm_num)
    (by norm_num)

/-- Claim C10: a reading with voltage present above 12 and current null produces a zero_current warning anomaly, since the null current relationally compares below 0.1. -/
theorem zeroCurrent_on_null_current :
    ∀ (d : Reading) (p : Option Reading) (v : ℚ),
      d.voltage = some v → 12 < v → d.current = none →
      (⟨"zero_current", "warning", "Voltage present but no current detected",
        none, none⟩ : Anomaly) ∈ detectAnomalies (some d) p := by
  intro d p v hv h12 hc
  have hvz : v ≠ 0 := by intro h; rw [h] at h12; norm_num at h12
  simp only [detectAnomalies, hv, hc]
  have h1 : truthy (some v) = true := by simp [truthy, hvz]
  have h2 : jsGtNull (some v) 12 = true := by simp [jsGtNull, h12]
  simp [h1, h2]
  right
  norm_num [jsLtNull]

/-- Witness for claim C10 at a concrete reading. -/
theorem zeroCurrent_on_null_current_witness :
    (⟨"zero_current", "warning", "Voltage present but no current detected",
      none, none⟩ : Anomaly) ∈
      detectAnomalies (some ⟨dt0, some 13, none, none, none⟩) none :=
  zeroCurrent_on_null_current ⟨dt0, some 13, none, none, none⟩ none 13 rfl
    (by norm_num) rfl

end Solar
